import Mathlib

/-!
Verification of the PII-masking core of the ElasticMcp repository
(`src/piiMasking.js`).

The file shallowly embeds the source:

* `JSVal` models the JavaScript values the configuration object can hold in
  its fields (the code tests them with `!config.enabled` truthiness and with
  the strict comparison `config[key] !== false`).
* A small backtracking regular-expression engine (`RE`, `mtchF`, `scanReplF`)
  gives executable semantics to the five regex literals of `PII_PATTERNS`:
  leftmost match, ordered (left-first) alternation, greedy quantifiers with
  backtracking, JavaScript word boundaries, and `String.prototype.replace`
  with a global flag (scanning resumes in the original string right after
  each match).  The engine covers exactly the constructs appearing in the
  five patterns; quantifiers are over character classes, so matches are never
  empty.  Character classes follow the ASCII semantics of `\d`, `\w`, `\s`
  (inputs considered here are ASCII; the code's strings are UTF-16).
* `Value` models the JSON-like union the engine traverses (null/undefined,
  boolean, number, string, array, object) plus `vexotic` for non-object
  JavaScript values outside that union (functions, symbols, ...), which the
  source's `maskObject` lets fall through to its final `return obj`.
  Numbers are modelled as `Int`; the code never computes with them.
* `PII_PATTERNS`, `maskString`, `maskObject`, `maskPII`,
  `getDefaultMaskingConfig` and `getAvailablePatterns` are direct
  translations of the functions of `src/piiMasking.js` with the same names.
-/

/-- A JavaScript value as it can appear in a configuration field. -/
inductive JSVal where
  | undefined
  | null
  | bool (b : Bool)
  | num (n : Int)
  | str (s : String)
  deriving DecidableEq, Repr

/-- JavaScript truthiness for the modelled values (numbers are modelled as
integers, so the only falsy number is 0). -/
def truthy : JSVal → Bool
  | .undefined => false
  | .null => false
  | .bool b => b
  | .num n => n != 0
  | .str s => s != ""

/-- The strict comparison `v !== false` used by `maskString` is the negation
of this test: `jsIsFalse v = true` exactly when `v` is the boolean `false`. -/
def jsIsFalse : JSVal → Bool
  | .bool false => true
  | _ => false

/-- The masking configuration object: the top-level `enabled` gate plus one
field per pattern key.  Fields that the caller does not set are `undefined`,
as for a missing property of a JavaScript object literal. -/
structure Config where
  enabled : JSVal := .undefined
  cpr : JSVal := .undefined
  email : JSVal := .undefined
  phone : JSVal := .undefined
  creditCard : JSVal := .undefined
  ssn : JSVal := .undefined
  deriving DecidableEq, Repr

/-- Property lookup `config[patternKey]` for the five registry keys. -/
def ruleFlag (c : Config) : String → JSVal
  | "cpr" => c.cpr
  | "email" => c.email
  | "phone" => c.phone
  | "creditCard" => c.creditCard
  | "ssn" => c.ssn
  | _ => .undefined

/-- Regular expressions, restricted to the constructs used by the five
pattern literals of `PII_PATTERNS`.  Quantified sub-expressions are always
character classes there, which keeps every match non-empty.  `alt` is
JavaScript's ordered alternation (left branch preferred), `plus p` is the
greedy `p+`, `repCls p n` is `p{n}`. -/
inductive RE where
  | eps
  | boundary
  | lit (c : Char)
  | cls (p : Char → Bool)
  | plus (p : Char → Bool)
  | repCls (p : Char → Bool) (n : Nat)
  | cat (a b : RE)
  | alt (a b : RE)

/-- Greedy `r?`, i.e. `r` preferred over the empty match. -/
def reOpt (r : RE) : RE := .alt r .eps

/-- Sequencing of a literal regex, as in the source's pattern literals. -/
def reSeq (rs : List RE) : RE := rs.foldr .cat .eps

/-- JavaScript word characters `[A-Za-z0-9_]`, the class underlying `\b`. -/
def wordChar (c : Char) : Bool := c.isAlphanum || c == '_'

/-- Word-character test on an optional character (`none` is the edge of the
string, which counts as a non-word position for `\b`). -/
def wordOpt : Option Char → Bool
  | none => false
  | some c => wordChar c

/-- First-match-wins choice on optional results (backtracking preference). -/
def oor (a b : Option Nat) : Option Nat :=
  match a with
  | some v => some v
  | none => b

/-- The backtracking matcher, in continuation-passing style.  `prev` is the
character immediately before the current position (for `\b`), `k` receives
the updated previous character and the rest of the input, and the result is
the total number of characters consumed by the regex and the continuation.
The `fuel` parameter only forces structural termination; `fuelFor` below
always provides enough for the recursion (each nested call strictly
decreases the size of the regex plus the length of the input suffix). -/
def mtchF : Nat → RE → Option Char → List Char →
    (Option Char → List Char → Option Nat) → Option Nat
  | 0, _, _, _, _ => none
  | fuel + 1, re, prev, s, k =>
    match re with
    | .eps => k prev s
    | .boundary => if wordOpt prev != wordOpt s.head? then k prev s else none
    | .lit c =>
      match s with
      | [] => none
      | x :: xs => if x = c then (k (some x) xs).map (· + 1) else none
    | .cls p =>
      match s with
      | [] => none
      | x :: xs => if p x then (k (some x) xs).map (· + 1) else none
    | .plus p =>
      match s with
      | [] => none
      | x :: xs =>
        if p x then
          (oor (mtchF fuel (.plus p) (some x) xs k) (k (some x) xs)).map (· + 1)
        else none
    | .repCls p n =>
      match n with
      | 0 => k prev s
      | m + 1 =>
        match s with
        | [] => none
        | x :: xs =>
          if p x then (mtchF fuel (.repCls p m) (some x) xs k).map (· + 1)
          else none
    | .cat a b => mtchF fuel a prev s fun p' s' => mtchF fuel b p' s' k
    | .alt a b => oor (mtchF fuel a prev s k) (mtchF fuel b prev s k)

/-- Node count of a regex, used to compute a sufficient fuel bound. -/
def reSize : RE → Nat
  | .eps => 1
  | .boundary => 1
  | .lit _ => 1
  | .cls _ => 1
  | .plus _ => 1
  | .repCls _ _ => 1
  | .cat a b => 1 + reSize a + reSize b
  | .alt a b => 1 + reSize a + reSize b

/-- Fuel that always suffices: every nested engine call strictly decreases
the regex size plus the remaining input length. -/
def fuelFor (re : RE) (s : List Char) : Nat := reSize re + s.length + 1

/-- Length of the match the engine finds at the current position, if any
(the first match in JavaScript's backtracking priority order). -/
def tryMatchAt (re : RE) (prev : Option Char) (s : List Char) : Option Nat :=
  mtchF (fuelFor re s) re prev s fun _ _ => some 0

/-- A replacement strategy: a constant placeholder string, or a function of
the matched substring (the source passes the match to the function; it uses
no capture groups). -/
inductive Replacement where
  | constant (s : String)
  | computed (f : String → String)

/-- Whether a replacement is a constant placeholder string. -/
def Replacement.isConstant : Replacement → Bool
  | .constant _ => true
  | .computed _ => false

/-- Apply a replacement to the matched substring, as
`String.prototype.replace` does (the constant placeholders of the source
contain no `$` sequences, so they are substituted literally). -/
def applyReplacement : Replacement → String → String
  | .constant r, _ => r
  | .computed f, m => f m

/-- Global replacement: scan left to right, at each position take the
engine's match if there is one, emit the replacement and resume right after
the matched region of the original input (`lastIndex` semantics of a `/g`
regex; `prev` stays the character of the original string before the resume
position).  The patterns of the registry can never match the empty string,
so a `some 0` result is treated as no match.  `fuel` only forces structural
termination; one unit per consumed character is enough. -/
def scanReplF : Nat → RE → Replacement → Option Char → List Char → List Char
  | 0, _, _, _, s => s
  | fuel + 1, re, rep, prev, s =>
    match s with
    | [] => []
    | x :: xs =>
      match tryMatchAt re prev (x :: xs) with
      | some (n + 1) =>
        let matched := (x :: xs).take (n + 1)
        (applyReplacement rep (String.mk matched)).data ++
          scanReplF fuel re rep matched.getLast? ((x :: xs).drop (n + 1))
      | _ => x :: scanReplF fuel re rep (some x) xs

/-- `value.replace(pattern, replacement)` for a `/g` pattern. -/
def replaceAll (re : RE) (rep : Replacement) (s : String) : String :=
  String.mk (scanReplF (s.data.length + 1) re rep none s.data)

/-- `\d`: ASCII digits. -/
def digitChar (c : Char) : Bool := c.isDigit

/-- `\s`: whitespace (ASCII part of JavaScript's class). -/
def wsChar (c : Char) : Bool :=
  c == ' ' || c == '\t' || c == '\n' || c == '\r' || c == '\x0b' || c == '\x0c'

/-- The email local-part class `[A-Za-z0-9._%+-]`. -/
def localChar (c : Char) : Bool :=
  c.isAlphanum || c == '.' || c == '_' || c == '%' || c == '+' || c == '-'

/-- The email domain class `[A-Za-z0-9.-]`. -/
def domainChar (c : Char) : Bool := c.isAlphanum || c == '.' || c == '-'

/-- The email TLD class, written `[A-Z|a-z]` in the source: upper-case
letters, lower-case letters, and the literal pipe character. -/
def tldChar (c : Char) : Bool := c.isAlpha || c == '|'

/-- The credit-card separator class `[\s-]`. -/
def sepChar (c : Char) : Bool := wsChar c || c == '-'

/-- `/\b\d{6}-?\d{4}\b/g` (Danish CPR number). -/
def cprRE : RE :=
  reSeq [.boundary, .repCls digitChar 6, reOpt (.lit '-'),
    .repCls digitChar 4, .boundary]

/-- `/\b[A-Za-z0-9._%+-]+@[A-Za-z0-9.-]+\.[A-Z|a-z]{2,}\b/g` (email):
`{2,}` is two repetitions followed by a greedy optional `+`. -/
def emailRE : RE :=
  reSeq [.boundary, .plus localChar, .lit '@', .plus domainChar, .lit '.',
    .repCls tldChar 2, reOpt (.plus tldChar), .boundary]

/-- The paired alternative `\d{2}\s?\d{2}\s?\d{2}\s?\d{2}` of the phone
pattern. -/
def phonePairsRE : RE :=
  reSeq [.repCls digitChar 2, reOpt (.cls wsChar), .repCls digitChar 2,
    reOpt (.cls wsChar), .repCls digitChar 2, reOpt (.cls wsChar),
    .repCls digitChar 2]

/-- `/\b(?:\+45\s?)?(?:\d{2}\s?\d{2}\s?\d{2}\s?\d{2}|\d{8})\b/g` (phone). -/
def phoneRE : RE :=
  reSeq [.boundary,
    reOpt (reSeq [.lit '+', .lit '4', .lit '5', reOpt (.cls wsChar)]),
    .alt phonePairsRE (.repCls digitChar 8), .boundary]

/-- `/\b\d{4}[\s-]?\d{4}[\s-]?\d{4}[\s-]?\d{4}\b/g` (credit card). -/
def creditCardRE : RE :=
  reSeq [.boundary, .repCls digitChar 4, reOpt (.cls sepChar),
    .repCls digitChar 4, reOpt (.cls sepChar), .repCls digitChar 4,
    reOpt (.cls sepChar), .repCls digitChar 4, .boundary]

/-- `/\b\d{3}-\d{2}-\d{4}\b/g` (social security number). -/
def ssnRE : RE :=
  reSeq [.boundary, .repCls digitChar 3, .lit '-', .repCls digitChar 2,
    .lit '-', .repCls digitChar 4, .boundary]

/-- `str.split(sep)` for a single-character separator: `"a@b@c"` splits to
`["a", "b", "c"]`, and a string without the separator yields a singleton. -/
def splitOnChar (c : Char) : List Char → List (List Char)
  | [] => [[]]
  | x :: xs =>
    let r := splitOnChar c xs
    if x == c then [] :: r
    else
      match r with
      | h :: t => (x :: h) :: t
      | [] => [[x]]

/-- The computed email replacement: `parts[0].substring(0, 2) + '***@' +
parts[1]` after `match.split('@')`.  A match always contains exactly one
`@`, so `parts[1]` exists; if it did not, JavaScript would concatenate the
string `"undefined"`, which the `List.getD` default reproduces. -/
def emailReplace (m : String) : String :=
  let parts := splitOnChar '@' m.data
  String.mk ((parts.headD []).take 2) ++ "***@" ++
    String.mk (parts.getD 1 "undefined".data)

/-- One entry of `PII_PATTERNS`. -/
structure Rule where
  pattern : RE
  replacement : Replacement
  description : String

/-- The pattern registry, in the key-insertion order of the source's object
literal (which is the iteration order of `Object.keys`). -/
def PII_PATTERNS : List (String × Rule) :=
  [("cpr", ⟨cprRE, .constant "******-****", "Danish CPR number"⟩),
   ("email", ⟨emailRE, .computed emailReplace, "Email address"⟩),
   ("phone", ⟨phoneRE, .constant "** ** ** **", "Phone number"⟩),
   ("creditCard",
     ⟨creditCardRE, .constant "**** **** **** ****", "Credit card number"⟩),
   ("ssn", ⟨ssnRE, .constant "***-**-****", "Social security number"⟩)]

/-- One rule application `maskedValue.replace(pattern, replacement)`. -/
def applyRule (r : Rule) (s : String) : String :=
  replaceAll r.pattern r.replacement s

/-- `maskString`: apply each pattern whose flag is not strictly `false`
(`config[patternKey] !== false`), in registry order, to the progressively
transformed string.  The source's `typeof value !== 'string'` guard is
handled by the caller's dispatch in `maskObject`, which only passes
strings here. -/
def maskString (value : String) (config : Config) : String :=
  PII_PATTERNS.foldl
    (fun acc kr => if jsIsFalse (ruleFlag config kr.1) then acc
      else applyRule kr.2 acc)
    value


mutual
/-- The recursive value union the engine operates over: null/undefined,
booleans, numbers, strings, ordered sequences, mappings with insertion-
ordered string keys — plus `vexotic`, a leaf standing for the non-object
JavaScript values outside this union (functions, symbols, ...), which fall
through every branch of the source's `maskObject` to its final
`return obj`. -/
inductive Value where
  | vnull
  | vundefined
  | vbool (b : Bool)
  | vnum (n : Int)
  | vstr (s : String)
  | varr (items : ValueList)
  | vobj (fields : FieldList)
  | vexotic (tag : String)
  deriving DecidableEq
/-- An ordered sequence of values (a JavaScript array). -/
inductive ValueList where
  | nil
  | cons (hd : Value) (tl : ValueList)
  deriving DecidableEq
/-- Insertion-ordered fields of a mapping, as produced by
`Object.entries`. -/
inductive FieldList where
  | nil
  | cons (key : String) (val : Value) (tl : FieldList)
  deriving DecidableEq
end

mutual
/-- `maskObject`: recursively mask PII in a value.  The branch order mirrors
the source: null/undefined first, then arrays (`map`), then objects
(rebuild from `Object.entries`), then strings (`maskString`), and every
other value is returned as-is. -/
def maskObject : Value → Config → Value
  | .vnull, _ => .vnull
  | .vundefined, _ => .vundefined
  | .varr items, config => .varr (maskItems items config)
  | .vobj fields, config => .vobj (maskFields fields config)
  | .vstr s, config => .vstr (maskString s config)
  | .vbool b, _ => .vbool b
  | .vnum n, _ => .vnum n
  | .vexotic t, _ => .vexotic t
/-- `obj.map(item => maskObject(item, config))` for arrays. -/
def maskItems : ValueList → Config → ValueList
  | .nil, _ => .nil
  | .cons h t, config => .cons (maskObject h config) (maskItems t config)
/-- The `for (const [key, value] of Object.entries(obj))` loop:
`masked[key] = maskObject(value, config)`, keys and order unchanged. -/
def maskFields : FieldList → Config → FieldList
  | .nil, _ => .nil
  | .cons k v t, config =>
    .cons k (maskObject v config) (maskFields t config)
end

/-- `maskPII`: if `!config.enabled` (truthiness test) return the input
unchanged, else mask recursively.  The configuration argument defaults to
the empty object, as in the source. -/
def maskPII (results : Value) (config : Config := {}) : Value :=
  if truthy config.enabled then maskObject results config else results

/-- `getDefaultMaskingConfig`. -/
def getDefaultMaskingConfig : Config :=
  { enabled := .bool false, cpr := .bool true, email := .bool true,
    phone := .bool true, creditCard := .bool true, ssn := .bool true }

/-- One record of the documentation view: `{name, description, example}`,
where the source fills `example` with the rule's `replacement` field. -/
structure PatternDoc where
  name : String
  description : String
  «example» : Replacement

/-- `getAvailablePatterns`: one record per registry entry, in registry
order. -/
def getAvailablePatterns : List PatternDoc :=
  PII_PATTERNS.map fun kv =>
    { name := kv.1, description := kv.2.description,
      «example» := kv.2.replacement }

mutual
/-- Containers have the same shape: the same variant at every node, the
same sequence lengths and element order, the same mapping keys in the same
order, equal non-string leaves — while string leaves may differ freely. -/
def sameShapeB : Value → Value → Bool
  | .vnull, .vnull => true
  | .vundefined, .vundefined => true
  | .vbool a, .vbool b => a == b
  | .vnum a, .vnum b => a == b
  | .vstr _, .vstr _ => true
  | .varr a, .varr b => sameItemsB a b
  | .vobj a, .vobj b => sameFieldsB a b
  | .vexotic a, .vexotic b => a == b
  | _, _ => false
/-- Pointwise shape equality of sequences (in particular equal length). -/
def sameItemsB : ValueList → ValueList → Bool
  | .nil, .nil => true
  | .cons h t, .cons h' t' => sameShapeB h h' && sameItemsB t t'
  | _, _ => false
/-- Pointwise shape equality of mappings: identical keys in identical
order, values of the same shape. -/
def sameFieldsB : FieldList → FieldList → Bool
  | .nil, .nil => true
  | .cons k v t, .cons k' v' t' => k == k' && sameShapeB v v' && sameFieldsB t t'
  | _, _ => false
end

/-- `config["cpr"]` is the `cpr` field. -/
theorem ruleFlag_cpr (c : Config) : ruleFlag c "cpr" = c.cpr := rfl

/-- `config["email"]` is the `email` field. -/
theorem ruleFlag_email (c : Config) : ruleFlag c "email" = c.email := rfl

/-- `config["phone"]` is the `phone` field. -/
theorem ruleFlag_phone (c : Config) : ruleFlag c "phone" = c.phone := rfl

/-- `config["creditCard"]` is the `creditCard` field. -/
theorem ruleFlag_creditCard (c : Config) :
    ruleFlag c "creditCard" = c.creditCard := rfl

/-- `config["ssn"]` is the `ssn` field. -/
theorem ruleFlag_ssn (c : Config) : ruleFlag c "ssn" = c.ssn := rfl

mutual
/-- Shape equality is reflexive. -/
theorem sameShapeB_refl (v : Value) : sameShapeB v v = true := by
  cases v with
  | vnull => rfl
  | vundefined => rfl
  | vbool b => simp [sameShapeB]
  | vnum n => simp [sameShapeB]
  | vstr s => rfl
  | varr items => simpa [sameShapeB] using sameItemsB_refl items
  | vobj fields => simpa [sameShapeB] using sameFieldsB_refl fields
  | vexotic t => simp [sameShapeB]
/-- Shape equality of sequences is reflexive. -/
theorem sameItemsB_refl (l : ValueList) : sameItemsB l l = true := by
  cases l with
  | nil => rfl
  | cons h t => simp [sameItemsB, sameShapeB_refl h, sameItemsB_refl t]
/-- Shape equality of field lists is reflexive. -/
theorem sameFieldsB_refl (l : FieldList) : sameFieldsB l l = true := by
  cases l with
  | nil => rfl
  | cons k v t => simp [sameFieldsB, sameShapeB_refl v, sameFieldsB_refl t]
end

mutual
/-- The recursive traversal preserves the container shape of its input. -/
theorem maskObject_shape (v : Value) (c : Config) :
    sameShapeB v (maskObject v c) = true := by
  cases v with
  | vnull => rfl
  | vundefined => rfl
  | vbool b => simp [maskObject, sameShapeB]
  | vnum n => simp [maskObject, sameShapeB]
  | vstr s => rfl
  | varr items => simpa [maskObject, sameShapeB] using maskItems_shape items c
  | vobj fields => simpa [maskObject, sameShapeB] using maskFields_shape fields c
  | vexotic t => simp [maskObject, sameShapeB]
/-- Mapping the traversal over a sequence preserves its shape. -/
theorem maskItems_shape (l : ValueList) (c : Config) :
    sameItemsB l (maskItems l c) = true := by
  cases l with
  | nil => rfl
  | cons h t =>
    simp [maskItems, sameItemsB, maskObject_shape h c, maskItems_shape t c]
/-- Rebuilding an object from its entries preserves keys, order and value
shapes. -/
theorem maskFields_shape (l : FieldList) (c : Config) :
    sameFieldsB l (maskFields l c) = true := by
  cases l with
  | nil => rfl
  | cons k v t =>
    simp [maskFields, sameFieldsB, maskObject_shape v c, maskFields_shape t c]
end

/-- Characters that can make a registry pattern match: decimal digits and
`@`.  A string without any of them is untouched by every rule. -/
def pDA (c : Char) : Bool := c.isDigit || c == '@'

/-- `RequiresP p re` states that every successful match of `re` must
consume at least one character satisfying `p`. -/
def RequiresP (p : Char → Bool) : RE → Prop
  | .eps => False
  | .boundary => False
  | .lit c => p c = true
  | .cls q => ∀ c, q c = true → p c = true
  | .plus q => ∀ c, q c = true → p c = true
  | .repCls q n => 0 < n ∧ ∀ c, q c = true → p c = true
  | .cat a b => RequiresP p a ∨ RequiresP p b
  | .alt a b => RequiresP p a ∧ RequiresP p b

/-- If a pattern requires a `p`-character and the input suffix has none
(and likewise the continuation fails on every clean suffix), the engine
finds no match. -/
theorem mtchF_none (p : Char → Bool) :
    ∀ (fuel : Nat) (re : RE) (prev : Option Char) (s : List Char)
      (k : Option Char → List Char → Option Nat),
      (∀ c ∈ s, p c = false) →
      (RequiresP p re ∨
        ∀ p' s', s'.length ≤ s.length → (∀ c ∈ s', p c = false) →
          k p' s' = none) →
      mtchF fuel re prev s k = none := by
  intro fuel
  induction fuel with
  | zero => intro re prev s k _ _; rfl
  | succ fuel ih =>
    intro re prev s k hs hk
    cases re with
    | eps =>
      rcases hk with h | h
      · simp only [RequiresP] at h
      · simpa [mtchF] using h prev s le_rfl hs
    | boundary =>
      rcases hk with h | h
      · simp only [RequiresP] at h
      · simp [mtchF, h prev s le_rfl hs]
    | lit ch =>
      cases s with
      | nil => rfl
      | cons x xs =>
        simp only [mtchF]
        by_cases hx : x = ch
        · rcases hk with h | h
          · simp only [RequiresP] at h
            have h2 : p x = false := hs x (List.mem_cons_self x xs)
            rw [hx, h] at h2
            simp at h2
          · rw [if_pos hx,
              h (some x) xs (Nat.le_succ xs.length)
                (fun c hc => hs c (List.mem_cons_of_mem _ hc))]
            rfl
        · rw [if_neg hx]
    | cls q =>
      cases s with
      | nil => rfl
      | cons x xs =>
        simp only [mtchF]
        by_cases hqx : q x = true
        · rcases hk with h | h
          · simp only [RequiresP] at h
            have h2 : p x = false := hs x (List.mem_cons_self x xs)
            rw [h x hqx] at h2
            simp at h2
          · rw [if_pos hqx,
              h (some x) xs (Nat.le_succ xs.length)
                (fun c hc => hs c (List.mem_cons_of_mem _ hc))]
            rfl
        · rw [if_neg hqx]
    | plus q =>
      cases s with
      | nil => rfl
      | cons x xs =>
        simp only [mtchF]
        by_cases hqx : q x = true
        · rcases hk with h | h
          · simp only [RequiresP] at h
            have h2 : p x = false := hs x (List.mem_cons_self x xs)
            rw [h x hqx] at h2
            simp at h2
          · rw [if_pos hqx]
            have hxs : ∀ c ∈ xs, p c = false :=
              fun c hc => hs c (List.mem_cons_of_mem _ hc)
            have h1 : mtchF fuel (.plus q) (some x) xs k = none :=
              ih (.plus q) (some x) xs k hxs
                (Or.inr fun p' s' hlen hcs =>
                  h p' s' (le_trans hlen (Nat.le_succ xs.length)) hcs)
            have h2 : k (some x) xs = none :=
              h (some x) xs (Nat.le_succ xs.length) hxs
            rw [h1, h2]
            rfl
        · rw [if_neg hqx]
    | repCls q n =>
      cases n with
      | zero =>
        rcases hk with h | h
        · simp only [RequiresP] at h
          exact absurd h.1 (by simp)
        · simpa [mtchF] using h prev s le_rfl hs
      | succ m =>
        cases s with
        | nil => rfl
        | cons x xs =>
          simp only [mtchF]
          by_cases hqx : q x = true
          · rcases hk with h | h
            · simp only [RequiresP] at h
              have h2 : p x = false := hs x (List.mem_cons_self x xs)
              rw [h.2 x hqx] at h2
              simp at h2
            · rw [if_pos hqx]
              have hxs : ∀ c ∈ xs, p c = false :=
                fun c hc => hs c (List.mem_cons_of_mem _ hc)
              have h1 : mtchF fuel (.repCls q m) (some x) xs k = none :=
                ih (.repCls q m) (some x) xs k hxs
                  (Or.inr fun p' s' hlen hcs =>
                    h p' s' (le_trans hlen (Nat.le_succ xs.length)) hcs)
              rw [h1]
              rfl
          · rw [if_neg hqx]
    | cat a b =>
      simp only [mtchF]
      rcases hk with h | hK
      · simp only [RequiresP] at h
        rcases h with ha | hb
        · exact ih a prev s _ hs (Or.inl ha)
        · refine ih a prev s _ hs (Or.inr ?_)
          intro p' s' hlen hcs
          exact ih b p' s' k hcs (Or.inl hb)
      · refine ih a prev s _ hs (Or.inr ?_)
        intro p' s' hlen hcs
        refine ih b p' s' k hcs (Or.inr ?_)
        intro p2 s2 hlen2 hcs2
        exact hK p2 s2 (le_trans hlen2 hlen) hcs2
    | alt a b =>
      simp only [mtchF]
      rcases hk with h | hK
      · simp only [RequiresP] at h
        rw [ih a prev s k hs (Or.inl h.1), ih b prev s k hs (Or.inl h.2)]
        rfl
      · rw [ih a prev s k hs (Or.inr hK), ih b prev s k hs (Or.inr hK)]
        rfl

/-- No match at any single position of a clean suffix. -/
theorem tryMatchAt_none (p : Char → Bool) (re : RE) (hreq : RequiresP p re)
    (prev : Option Char) (s : List Char) (hs : ∀ c ∈ s, p c = false) :
    tryMatchAt re prev s = none :=
  mtchF_none p _ re prev s _ hs (Or.inl hreq)

/-- A global replacement scan over a clean string is the identity. -/
theorem scanReplF_id (p : Char → Bool) (re : RE) (rep : Replacement)
    (hreq : RequiresP p re) :
    ∀ (fuel : Nat) (prev : Option Char) (s : List Char),
      (∀ c ∈ s, p c = false) → scanReplF fuel re rep prev s = s := by
  intro fuel
  induction fuel with
  | zero => intro prev s _; rfl
  | succ fuel ih =>
    intro prev s hs
    cases s with
    | nil => rfl
    | cons x xs =>
      simp only [scanReplF]
      rw [tryMatchAt_none p re hreq prev (x :: xs) hs]
      exact congrArg (x :: ·)
        (ih (some x) xs fun c hc => hs c (List.mem_cons_of_mem _ hc))

/-- Applying a rule whose pattern requires a `p`-character to a clean
string changes nothing. -/
theorem applyRule_id (p : Char → Bool) (r : Rule)
    (hreq : RequiresP p r.pattern) (s : String)
    (hs : ∀ c ∈ s.data, p c = false) : applyRule r s = s := by
  unfold applyRule replaceAll
  rw [scanReplF_id p r.pattern r.replacement hreq _ none s.data hs]

/-- The CPR pattern only matches strings containing a digit. -/
theorem cprRE_requires : RequiresP pDA cprRE :=
  Or.inr (Or.inl ⟨by decide, fun c hc => by
    simp only [digitChar] at hc
    simp [pDA, hc]⟩)

/-- The email pattern only matches strings containing `@`. -/
theorem emailRE_requires : RequiresP pDA emailRE :=
  Or.inr (Or.inr (Or.inl (show pDA '@' = true by decide)))

/-- The phone pattern only matches strings containing a digit. -/
theorem phoneRE_requires : RequiresP pDA phoneRE := by
  have hsub : ∀ c, digitChar c = true → pDA c = true := fun c hc => by
    simp only [digitChar] at hc
    simp [pDA, hc]
  exact Or.inr (Or.inr (Or.inl ⟨Or.inl ⟨by decide, hsub⟩, ⟨by decide, hsub⟩⟩))

/-- The credit-card pattern only matches strings containing a digit. -/
theorem creditCardRE_requires : RequiresP pDA creditCardRE :=
  Or.inr (Or.inl ⟨by decide, fun c hc => by
    simp only [digitChar] at hc
    simp [pDA, hc]⟩)

/-- The SSN pattern only matches strings containing a digit. -/
theorem ssnRE_requires : RequiresP pDA ssnRE :=
  Or.inr (Or.inl ⟨by decide, fun c hc => by
    simp only [digitChar] at hc
    simp [pDA, hc]⟩)

/-- A string is clean when it contains neither a decimal digit nor `@`. -/
def cleanStr (s : String) : Bool := s.data.all fun c => !pDA c

mutual
/-- Every string leaf of the value is clean (object keys need not be: they
are never masked). -/
def cleanV : Value → Bool
  | .vstr s => cleanStr s
  | .varr items => cleanItems items
  | .vobj fields => cleanFields fields
  | _ => true
/-- All elements clean. -/
def cleanItems : ValueList → Bool
  | .nil => true
  | .cons h t => cleanV h && cleanItems t
/-- All field values clean. -/
def cleanFields : FieldList → Bool
  | .nil => true
  | .cons _ v t => cleanV v && cleanFields t
end

/-- `maskString` leaves a clean string unchanged, whatever the
configuration. -/
theorem maskString_clean (s : String) (c : Config) (hc : cleanStr s = true) :
    maskString s c = s := by
  have hs : ∀ ch ∈ s.data, pDA ch = false := by
    intro ch hch
    have := (List.all_eq_true.mp hc) ch hch
    simpa using this
  have key : ∀ (rules : List (String × Rule)),
      (∀ kr ∈ rules, RequiresP pDA kr.2.pattern) →
      List.foldl
        (fun acc kr => if jsIsFalse (ruleFlag c kr.1) then acc
          else applyRule kr.2 acc) s rules = s := by
    intro rules hrules
    induction rules with
    | nil => rfl
    | cons kr rest ihr =>
      have hstep :
          (if jsIsFalse (ruleFlag c kr.1) then s else applyRule kr.2 s) = s := by
        rw [applyRule_id pDA kr.2 (hrules kr (List.mem_cons_self kr rest)) s hs,
          ite_self]
      simpa [List.foldl, hstep] using
        ihr fun kr2 h2 => hrules kr2 (List.mem_cons_of_mem _ h2)
  have hall : ∀ kr ∈ PII_PATTERNS, RequiresP pDA kr.2.pattern := by
    intro kr hkr
    simp only [PII_PATTERNS, List.mem_cons, List.mem_singleton] at hkr
    rcases hkr with h | h | h | h | h | h
    · rw [h]; exact cprRE_requires
    · rw [h]; exact emailRE_requires
    · rw [h]; exact phoneRE_requires
    · rw [h]; exact creditCardRE_requires
    · rw [h]; exact ssnRE_requires
    · simp at h
  exact key PII_PATTERNS hall

mutual
/-- The traversal leaves a clean value unchanged. -/
theorem maskObject_clean (v : Value) (c : Config) (h : cleanV v = true) :
    maskObject v c = v := by
  cases v with
  | vnull => rfl
  | vundefined => rfl
  | vbool b => rfl
  | vnum n => rfl
  | vstr s => simp only [maskObject]; rw [maskString_clean s c h]
  | varr items =>
    simp only [maskObject]
    rw [maskItems_clean items c (by simpa [cleanV] using h)]
  | vobj fields =>
    simp only [maskObject]
    rw [maskFields_clean fields c (by simpa [cleanV] using h)]
  | vexotic t => rfl
/-- Clean sequences are unchanged. -/
theorem maskItems_clean (l : ValueList) (c : Config)
    (h : cleanItems l = true) : maskItems l c = l := by
  cases l with
  | nil => rfl
  | cons hd tl =>
    simp only [cleanItems, Bool.and_eq_true] at h
    simp only [maskItems]
    rw [maskObject_clean hd c h.1, maskItems_clean tl c h.2]
/-- Clean field lists are unchanged. -/
theorem maskFields_clean (l : FieldList) (c : Config)
    (h : cleanFields l = true) : maskFields l c = l := by
  cases l with
  | nil => rfl
  | cons k v tl =>
    simp only [cleanFields, Bool.and_eq_true] at h
    simp only [maskFields]
    rw [maskObject_clean v c h.1, maskFields_clean tl c h.2]
end

/-- A clean value is a fixed point of `maskPII`. -/
theorem maskPII_clean (v : Value) (c : Config) (h : cleanV v = true) :
    maskPII v c = v := by
  unfold maskPII
  split
  · exact maskObject_clean v c h
  · rfl

/-- Intermediate evaluation for the per-rule opt-out property: on the
string `"123-45-6789 ab@cd.ef"` the cpr, phone and credit-card patterns
find no match, the email rule (when not explicitly disabled) masks the
address, and the ssn rule masks the leading SSN exactly when its flag is
not the explicit boolean `false`. -/
theorem maskString_optOut (c : Config) (hemail : jsIsFalse c.email = false) :
    maskString "123-45-6789 ab@cd.ef" c =
      if jsIsFalse c.ssn then "123-45-6789 ab***@cd.ef"
      else "***-**-**** ab***@cd.ef" := by
  unfold maskString
  have e1 : applyRule
      ⟨cprRE, Replacement.constant "******-****", "Danish CPR number"⟩
      "123-45-6789 ab@cd.ef" = "123-45-6789 ab@cd.ef" := by decide
  have e2 : applyRule
      ⟨emailRE, Replacement.computed emailReplace, "Email address"⟩
      "123-45-6789 ab@cd.ef" = "123-45-6789 ab***@cd.ef" := by decide
  have e3 : applyRule
      ⟨phoneRE, Replacement.constant "** ** ** **", "Phone number"⟩
      "123-45-6789 ab***@cd.ef" = "123-45-6789 ab***@cd.ef" := by decide
  have e4 : applyRule
      ⟨creditCardRE, Replacement.constant "**** **** **** ****",
        "Credit card number"⟩
      "123-45-6789 ab***@cd.ef" = "123-45-6789 ab***@cd.ef" := by decide
  have e5 : applyRule
      ⟨ssnRE, Replacement.constant "***-**-****", "Social security number"⟩
      "123-45-6789 ab***@cd.ef" = "***-**-**** ab***@cd.ef" := by decide
  simp [PII_PATTERNS, ruleFlag_cpr, ruleFlag_email, ruleFlag_phone,
    ruleFlag_creditCard, ruleFlag_ssn, e1, e2, e3, e4, e5, hemail, ite_self]

/-- C1: for every finite acyclic Value and every Configuration, the output
of `maskPII` has the same container shape as the input — the same variant
at every node, the same sequence length and element order, the same
mapping key set and key order — and non-string leaves (numbers, booleans,
null/absence) are returned unchanged; only string leaves may differ in
content. -/
theorem claim_C1_shape_preservation (v : Value) (c : Config) :
    sameShapeB v (maskPII v c) = true := by
  unfold maskPII
  split
  · exact maskObject_shape v c
  · exact sameShapeB_refl v

/-- C2 counterexample: re-masking is not a no-op.  On the single string
`"a@b.cd@ef.gh"` with masking enabled, the first pass replaces the leftmost
email match `"a@b.cd"` giving `"a***@b.cd@ef.gh"`, in which the email rule
then matches `"b.cd@ef.gh"` (its replacement preserved the domain and the
second `@` follows), so a second pass yields `"a***@b.***@ef.gh"`. -/
theorem claim_C2_counterexample :
    maskPII (maskPII (Value.vstr "a@b.cd@ef.gh") {enabled := .bool true})
        {enabled := .bool true}
      ≠ maskPII (Value.vstr "a@b.cd@ef.gh") {enabled := .bool true} := by
  decide

/-- C2 amended: `maskPII` is not idempotent in general (the email rule's
computed replacement keeps the domain and the first two local-part
characters, which can re-match when another `@` follows, as in
`"a@b.cd@ef.gh"`).  Re-masking is a no-op on values none of whose string
leaves contain a decimal digit or `@`: every rule needs one of those
characters to match, so such values are fixed points of masking. -/
theorem claim_C2_idempotent_on_clean (v : Value) (c : Config)
    (h : cleanV v = true) :
    maskPII (maskPII v c) c = maskPII v c := by
  have h1 := maskPII_clean v c h
  rw [h1]
  exact h1

/-- Witness for the amended C2 at a concrete clean value. -/
theorem claim_C2_witness :
    cleanV (Value.vstr "no pii here") = true ∧
      maskPII (maskPII (Value.vstr "no pii here") {enabled := .bool true})
          {enabled := .bool true}
        = maskPII (Value.vstr "no pii here") {enabled := .bool true} :=
  ⟨by decide, claim_C2_idempotent_on_clean _ _ (by decide)⟩

/-- C3 counterexample: with all per-rule flags at their defaults, the
space-separated credit-card string `"1234 5678 9012 3456"` is not replaced
by the credit-card placeholder: the phone rule runs first in registry
order and its paired alternative `\d{2}\s?\d{2}\s?\d{2}\s?\d{2}` matches
`"1234 5678"` and then `"9012 3456"`, so the output is two phone
placeholders, not `"**** **** **** ****"`. -/
theorem claim_C3_counterexample :
    maskPII (Value.vstr "1234 5678 9012 3456") {enabled := .bool true}
        = Value.vstr "** ** ** ** ** ** ** **" ∧
      Value.vstr "** ** ** ** ** ** ** **"
        ≠ Value.vstr "**** **** **** ****" :=
  ⟨by decide, by decide⟩

/-- C3 amended: with masking enabled and all per-rule flags at their
defaults, a whole-word 16-digit card number written with hyphen separators
or with no separators is replaced by the constant placeholder
`"**** **** **** ****"`; when the four groups are separated by spaces the
phone rule (earlier in registry order) consumes the digit groups first and
the credit-card placeholder is not produced. -/
theorem claim_C3_creditCard_separators :
    maskPII (Value.vstr "1234-5678-9012-3456") {enabled := .bool true}
        = Value.vstr "**** **** **** ****" ∧
      maskPII (Value.vstr "1234567890123456") {enabled := .bool true}
        = Value.vstr "**** **** **** ****" ∧
      maskPII (Value.vstr "1234 5678 9012 3456") {enabled := .bool true}
        = Value.vstr "** ** ** ** ** ** ** **" :=
  ⟨by decide, by decide, by decide⟩

/-- C4 counterexample: the phone pattern's leading `\b` sits before the
optional `\+45`, and `+` is not a word character, so at the start of the
string `"+45 12 34 56 78"` there is no word boundary before `+` and the
match cannot include the prefix; the engine instead matches `"45 12 34 56"`
starting at the word boundary before `4`, leaving `"+** ** ** ** 78"`
rather than replacing the entire occurrence with `"** ** ** **"`. -/
theorem claim_C4_counterexample :
    maskPII (Value.vstr "+45 12 34 56 78") {enabled := .bool true}
        = Value.vstr "+** ** ** ** 78" ∧
      Value.vstr "+** ** ** ** 78" ≠ Value.vstr "** ** ** **" :=
  ⟨by decide, by decide⟩

/-- C4 amended: a whole-word occurrence of 8 digits optionally grouped in
pairs is replaced by `"** ** ** **"`, and the `+45` prefix is included in
the replaced occurrence only when the character immediately before `+` is
a word character (so that `\b` holds before `+`); a string-initial or
space-preceded `+45` is left in place and the match starts inside the
number. -/
theorem claim_C4_phone_prefix :
    maskPII (Value.vstr "12 34 56 78") {enabled := .bool true}
        = Value.vstr "** ** ** **" ∧
      maskPII (Value.vstr "12345678") {enabled := .bool true}
        = Value.vstr "** ** ** **" ∧
      maskPII (Value.vstr "x+45 12 34 56 78") {enabled := .bool true}
        = Value.vstr "x** ** ** **" ∧
      maskPII (Value.vstr "+45 12 34 56 78") {enabled := .bool true}
        = Value.vstr "+** ** ** ** 78" :=
  ⟨by decide, by decide, by decide, by decide⟩

/-- C5 counterexample: the TLD character class of the email pattern is
written `[A-Z|a-z]`, which contains the literal pipe besides the letters.
The string `"ab@cd.e|f"` contains no substring whose TLD consists of two
or more letters, so under the claim the email rule would leave it
untouched (no other rule can match: the string has no digit); the code
masks it to `"ab***@cd.e|f"`. -/
theorem claim_C5_counterexample :
    maskPII (Value.vstr "ab@cd.e|f") {enabled := .bool true, email := .bool true}
      ≠ Value.vstr "ab@cd.e|f" := by decide

/-- C5 amended: the email rule matches `local@domain.tld` substrings at
word boundaries with the local part drawn from `[A-Za-z0-9._%+-]+`, the
domain from `[A-Za-z0-9.-]+`, and the TLD after the final dot consisting
of 2 or more characters from `[A-Z|a-z]` — letters or the literal pipe,
not letters only; each match is replaced by the first 2 characters of the
local part (or as many as exist), then `"***@"`, then the unchanged
domain. -/
theorem claim_C5_email_masking :
    maskPII (Value.vstr "john.doe@example.com")
        {enabled := .bool true, email := .bool true}
        = Value.vstr "jo***@example.com" ∧
      maskPII (Value.vstr "a@b.cd") {enabled := .bool true}
        = Value.vstr "a***@b.cd" ∧
      maskPII (Value.vstr "ab@cd.e|f") {enabled := .bool true}
        = Value.vstr "ab***@cd.e|f" :=
  ⟨by decide, by decide, by decide⟩

/-- C6: when the top-level `enabled` gate is the boolean `false`, `maskPII`
returns its input unchanged regardless of the per-rule flags. -/
theorem claim_C6_disabled_identity (v : Value) (c : Config)
    (h : c.enabled = JSVal.bool false) : maskPII v c = v := by
  unfold maskPII
  rw [h]
  rfl

/-- Witness for C6 at a concrete value and configuration. -/
theorem claim_C6_witness :
    maskPII (Value.vstr "john@ex.dk")
        {enabled := JSVal.bool false, email := JSVal.bool true}
      = Value.vstr "john@ex.dk" :=
  claim_C6_disabled_identity _ _ rfl

/-- C7 counterexample: `maskPII` does not raise an error when the caller
passes a value outside the defined Value union — a non-object leaf such as
a function falls through every branch of `maskObject` to its final
`return obj` and is returned unchanged, with no fail-fast behaviour. -/
theorem claim_C7_counterexample :
    maskPII (Value.vexotic "function") {enabled := JSVal.bool true}
      = Value.vexotic "function" := by decide

/-- C7 amended: `maskPII` never raises: it is total over every well-formed
finite Value and a legitimate leaf (number, boolean, string, absence)
never produces an error, but a value outside the defined union is not
rejected either — non-object exotic leaves are silently passed through
unchanged rather than failing fast with a descriptive error. -/
theorem claim_C7_total_no_error (t : String) (c : Config) :
    maskPII (Value.vexotic t) c = Value.vexotic t := by
  unfold maskPII
  split
  · rfl
  · rfl

/-- C8: with the gate on, a rule is applied exactly when its flag is not
the explicit boolean `false` (`config[key] !== false`; absent or
non-boolean flags count as enabled).  On `"123-45-6789 ab@cd.ef"` with the
email rule not explicitly disabled: if the ssn flag is the explicit
`false` the SSN-shaped prefix stays while the email is still masked, and
with any other ssn flag the ssn rule also applies. -/
theorem claim_C8_per_rule_opt_out (c : Config)
    (hgate : truthy c.enabled = true) (hemail : jsIsFalse c.email = false) :
    (jsIsFalse c.ssn = true →
      maskPII (Value.vstr "123-45-6789 ab@cd.ef") c
        = Value.vstr "123-45-6789 ab***@cd.ef") ∧
    (jsIsFalse c.ssn = false →
      maskPII (Value.vstr "123-45-6789 ab@cd.ef") c
        = Value.vstr "***-**-**** ab***@cd.ef") := by
  constructor <;> intro hssn <;>
    · unfold maskPII
      rw [if_pos hgate]
      simp only [maskObject]
      rw [maskString_optOut c hemail]
      simp [hssn]

/-- Witness for C8: explicit gate on, ssn explicitly off, email flag
absent. -/
theorem claim_C8_witness :
    maskPII (Value.vstr "123-45-6789 ab@cd.ef")
        {enabled := JSVal.bool true, ssn := JSVal.bool false}
      = Value.vstr "123-45-6789 ab***@cd.ef" :=
  (claim_C8_per_rule_opt_out _ (by decide) (by decide)).1 (by decide)

/-- C9: `maskPII` with the configuration omitted returns the input itself,
and more generally any configuration whose `enabled` field is falsy
(undefined, null, boolean false, 0, empty string) makes `maskPII` the
identity: the gate is tested by truthiness, so masking is strictly
opt-in. -/
theorem claim_C9_truthiness_gate :
    (∀ v : Value, maskPII v = v) ∧
      ∀ (v : Value) (c : Config), truthy c.enabled = false → maskPII v c = v := by
  constructor
  · intro v
    rfl
  · intro v c h
    unfold maskPII
    rw [h]
    rfl

/-- Witness for C9 at the falsy number 0 (not the boolean `false`). -/
theorem claim_C9_witness :
    maskPII (Value.vstr "ab@cd.ef") {enabled := JSVal.num 0}
      = Value.vstr "ab@cd.ef" :=
  claim_C9_truthiness_gate.2 _ _ (by decide)

/-- C10 counterexample: the documentation view copies each rule's
`replacement` into the record's `example` field, and for the email rule
that replacement is the computed function, not a placeholder-example
string. -/
theorem claim_C10_counterexample :
    (getAvailablePatterns.get? 1).map
        (fun e => Replacement.isConstant (PatternDoc.«example» e))
      = some false := rfl

/-- C10 amended: `getAvailablePatterns` returns one record per rule, for
all five rules in stable registry order, each carrying the rule's id, its
human-readable description, and the rule's replacement as the example —
a constant placeholder string for cpr, phone, creditCard and ssn, but the
computed replacement function (not a string) for email.  The view reads
the registry only; the masking functions never consult it. -/
theorem claim_C10_documentation_view :
    getAvailablePatterns =
      [⟨"cpr", "Danish CPR number", .constant "******-****"⟩,
       ⟨"email", "Email address", .computed emailReplace⟩,
       ⟨"phone", "Phone number", .constant "** ** ** **"⟩,
       ⟨"creditCard", "Credit card number", .constant "**** **** **** ****"⟩,
       ⟨"ssn", "Social security number", .constant "***-**-****"⟩] := rfl
